import Mathlib

/-!
Verification of the telemetry dispatch core of prose-app-web
(`src/utilities/tracking.ts`): the opt-out gate, the per-event-name
rate limiter, identifier anonymization via truncated SHA-256, and
best-effort network dispatch with failure absorption.

The development shallowly embeds the TypeScript source: machine words are
`Nat` with explicit reduction mod 2^32, JavaScript `undefined` is `Option`,
thrown exceptions are an explicit `thrown` field produced by the try-block
and absorbed by the catch clause, and the mutable per-instance state
(the rate-limit register) is threaded explicitly.
-/

namespace ProseTelemetry

/-! ### SHA-256 (the `crypto-js/sha256` dependency, FIPS 180-4), over `Nat` -/

/-- Reduce to a 32-bit word. -/
def w32 (n : Nat) : Nat := n % 4294967296

/-- Rotate a 32-bit word right by a given bit count: the wrapped
disjunction of the two shifted halves. -/
def rotr (k x : Nat) : Nat := w32 ((x >>> k) ||| (x <<< (32 - k)))

def bigSigma0 (x : Nat) : Nat := rotr 2 x ^^^ rotr 13 x ^^^ rotr 22 x

def bigSigma1 (x : Nat) : Nat := rotr 6 x ^^^ rotr 11 x ^^^ rotr 25 x

def smallSigma0 (x : Nat) : Nat := rotr 7 x ^^^ rotr 18 x ^^^ (x >>> 3)

def smallSigma1 (x : Nat) : Nat := rotr 17 x ^^^ rotr 19 x ^^^ (x >>> 10)

def chFn (u v w : Nat) : Nat := (u &&& v) ^^^ ((4294967295 ^^^ u) &&& w)

def majFn (u v w : Nat) : Nat := (u &&& v) ^^^ (u &&& w) ^^^ (v &&& w)

/-- Round-constant table of SHA-256, in decimal: the first 32 bits of the
fractional parts of the cube roots of the primes 2 through 311. -/
def K256 : List Nat :=
  [1116352408, 1899447441, 3049323471, 3921009573,
   961987163, 1508970993, 2453635748, 2870763221,
   3624381080, 310598401, 607225278, 1426881987,
   1925078388, 2162078206, 2614888103, 3248222580,
   3835390401, 4022224774, 264347078, 604807628,
   770255983, 1249150122, 1555081692, 1996064986,
   2554220882, 2821834349, 2952996808, 3210313671,
   3336571891, 3584528711, 113926993, 338241895,
   666307205, 773529912, 1294757372, 1396182291,
   1695183700, 1986661051, 2177026350, 2456956037,
   2730485921, 2820302411, 3259730800, 3345764771,
   3516065817, 3600352804, 4094571909, 275423344,
   430227734, 506948616, 659060556, 883997877,
   958139571, 1322822218, 1537002063, 1747873779,
   1955562222, 2024104815, 2227730452, 2361852424,
   2428436474, 2756734187, 3204031479, 3329325298]

/-- The eight-word SHA-256 working state. -/
structure H8 where
  a : Nat
  b : Nat
  c : Nat
  d : Nat
  e : Nat
  f : Nat
  g : Nat
  h : Nat
deriving DecidableEq, Repr

/-- Initial SHA-256 hash state (fractional parts of the square roots of the
first 8 primes). -/
def initH : H8 :=
  ⟨1779033703, 3144134277, 1013904242, 2773480762,
   1359893119, 2600822924, 528734635, 1541459225⟩

/-- UTF-8 encoding of a single character (code points are valid scalar
values in Lean, as in well-formed JavaScript strings). -/
def charUtf8Bytes (c : Char) : List Nat :=
  let n := c.toNat
  if n < 128 then [n]
  else if n < 2048 then [192 + n / 64, 128 + n % 64]
  else if n < 65536 then [224 + n / 4096, 128 + n / 64 % 64, 128 + n % 64]
  else [240 + n / 262144, 128 + n / 4096 % 64, 128 + n / 64 % 64, 128 + n % 64]

/-- UTF-8 bytes of a string. -/
def strBytes (s : String) : List Nat := (s.data.map charUtf8Bytes).flatten

/-- Big-endian 8-byte encoding of the bit length. -/
def lenBytes (n : Nat) : List Nat :=
  [n / 72057594037927936 % 256, n / 281474976710656 % 256,
   n / 1099511627776 % 256, n / 4294967296 % 256,
   n / 16777216 % 256, n / 65536 % 256, n / 256 % 256, n % 256]

/-- SHA-256 padding: append 0x80, zero-fill to 56 mod 64, then the 64-bit
big-endian message bit length. -/
def padBytes (msg : List Nat) : List Nat :=
  let L := msg.length
  let zeros := (64 + 56 - (L + 1) % 64) % 64
  msg ++ 128 :: List.replicate zeros 0 ++ lenBytes (8 * L)

/-- Pack bytes into big-endian 32-bit words. -/
def bytesToWords : List Nat → List Nat
  | a :: b :: c :: d :: rest =>
      (a * 16777216 + b * 65536 + c * 256 + d) :: bytesToWords rest
  | _ => []

/-- Split a word list into blocks of 16 words (fuel-bounded recursion). -/
def chunkWordsAux : Nat → List Nat → List (List Nat)
  | 0, _ => []
  | _, [] => []
  | n + 1, ws => ws.take 16 :: chunkWordsAux n (ws.drop 16)

def chunkWords (ws : List Nat) : List (List Nat) := chunkWordsAux ws.length ws

/-- One message-schedule extension step on the reversed schedule
(head is the most recent word). -/
def extendStep (rws : List Nat) : List Nat :=
  let g : Nat → Nat := fun k => (rws.get? k).getD 0
  w32 (smallSigma1 (g 1) + g 6 + smallSigma0 (g 14) + g 15) :: rws

/-- The 64-entry message schedule of one 16-word block. -/
def fullSchedule (block : List Nat) : List Nat :=
  (extendStep^[48] block.reverse).reverse

/-- One SHA-256 compression round. -/
def round (st : H8) (kw : Nat × Nat) : H8 :=
  let t1 := w32 (st.h + bigSigma1 st.e + chFn st.e st.f st.g + kw.1 + kw.2)
  let t2 := w32 (bigSigma0 st.a + majFn st.a st.b st.c)
  ⟨w32 (t1 + t2), st.a, st.b, st.c, w32 (st.d + t1), st.e, st.f, st.g⟩

/-- Compress one 16-word block into the hash state. -/
def compress (hs : H8) (block : List Nat) : H8 :=
  let st := (K256.zip (fullSchedule block)).foldl round hs
  ⟨w32 (hs.a + st.a), w32 (hs.b + st.b), w32 (hs.c + st.c), w32 (hs.d + st.d),
   w32 (hs.e + st.e), w32 (hs.f + st.f), w32 (hs.g + st.g), w32 (hs.h + st.h)⟩

/-- The eight 32-bit digest words of the SHA-256 of a string. -/
def digestWords (s : String) : List Nat :=
  let hs := (chunkWords (bytesToWords (padBytes (strBytes s)))).foldl compress initH
  [hs.a, hs.b, hs.c, hs.d, hs.e, hs.f, hs.g, hs.h]

/-- A hex digit character, lowercase. -/
def hexDigit (n : Nat) : Char :=
  if n < 10 then Char.ofNat (48 + n) else Char.ofNat (87 + n)

/-- The eight hex characters of a 32-bit word, big-endian. -/
def wordHexChars (w : Nat) : List Char :=
  [hexDigit (w / 268435456 % 16), hexDigit (w / 16777216 % 16),
   hexDigit (w / 1048576 % 16), hexDigit (w / 65536 % 16),
   hexDigit (w / 4096 % 16), hexDigit (w / 256 % 16),
   hexDigit (w / 16 % 16), hexDigit (w % 16)]

/-- Lowercase hex rendering of the SHA-256 digest of a string: the model of
`Sha256(identifier).toString()` from `crypto-js`. -/
def sha256Hex (s : String) : String :=
  String.mk ((digestWords s).map wordHexChars).flatten

/-! ### JavaScript string helpers -/

/-- JS `String.prototype.slice(0, n)`; all strings sliced in this development
are ASCII hex, where UTF-16 units coincide with characters. -/
def sliceTo (s : String) (n : Nat) : String := String.mk (s.data.take n)

/-- Split a character list on every occurrence of a separator, keeping empty
pieces (the list is never empty). -/
def splitOnChar (sep : Char) : List Char → List (List Char)
  | [] => [[]]
  | c :: rest =>
      match splitOnChar sep rest, decide (c = sep) with
      | r, true => [] :: r
      | [], false => [[c]]
      | p :: ps, false => (c :: p) :: ps

/-- JS `String.prototype.split(sep)` for a one-character separator: like the
JS original it keeps empty pieces and returns `[""]` on the empty string. -/
def jsSplit (s : String) (sep : Char) : List String :=
  (splitOnChar sep s.data).map String.mk

/-! ### Data model of `src/utilities/tracking.ts` -/

/-- The `TrackingEventName` enumeration. -/
inductive TrackingEventName
  | appHeartbeat
  | accountSignin
  | accountSignout
  | profileUpdate
deriving DecidableEq, Repr

/-- The string value of each enum member. -/
def TrackingEventName.str : TrackingEventName → String
  | .appHeartbeat => "app:heartbeat"
  | .accountSignin => "account:signin"
  | .accountSignout => "account:signout"
  | .profileUpdate => "profile:update"

structure TrackingEventOriginApp where
  name : String
  version : String
  platform : String
deriving DecidableEq, Repr

structure TrackingEventOriginPod where
  domain_hash : String
  user_hash : Option String
deriving DecidableEq, Repr

structure TrackingEventOrigin where
  app : TrackingEventOriginApp
  pod : TrackingEventOriginPod
deriving DecidableEq, Repr

/-- The event payload; `data` is the opaque optional caller value, of an
arbitrary type `α`. -/
structure TrackingEventPayload (α : Type) where
  name : TrackingEventName
  data : Option α
  origin : TrackingEventOrigin
deriving DecidableEq, Repr

def EVENT_NAME_NEXT_SEND_DELAY : Nat := 3000

def ANONYMIZED_USER_IDENTIFIER_SHORT_LENGTH : Nat := 16

/-- The register `__eventsNextAllowedSendRegister`: a JS object used as a map from
event-name strings to timestamps. -/
abbrev RegisterMap := List (String × Nat)

/-- JS property read `register[name]` (`undefined` when the key is absent). -/
def regGet (reg : RegisterMap) (k : String) : Option Nat :=
  (reg.find? (fun e => e.1 == k)).map (fun e => e.2)

/-- JS property write `register[name] = v`. -/
def regSet (reg : RegisterMap) (k : String) (v : Nat) : RegisterMap :=
  (k, v) :: reg.filter (fun e => e.1 != k)

/-- The per-instance state of `UtilitiesTracking`: the app origin computed in
the constructor, and the mutable rate-limit register. -/
structure TrackingState where
  eventOriginApp : TrackingEventOriginApp
  eventsNextAllowedSendRegister : RegisterMap
deriving DecidableEq, Repr

/-- Outcome of one `fetch` invocation, as configured for the surrounding
call: the promise rejects (network error) or resolves with a response whose
`ok` flag is given. -/
inductive FetchResult
  | networkError (message : String)
  | response (ok : Bool)
deriving DecidableEq, Repr

/-- The external collaborators as read during one `record` call. -/
structure TrackingEnv where
  /-- `Store.$settings.privacy.report.tracking` (a possibly-unset flag). -/
  trackingSetting : Option Bool
  /-- `CONFIG.overrides?.disableTracking` (a possibly-unset flag). -/
  disableTracking : Option Bool
  /-- `Date.now()` in milliseconds. -/
  nowTime : Nat
  /-- `Store.$account.getSelfJID().node` (the principal; may be unset). -/
  selfJIDNode : Option String
  /-- `Store.$account.getSelfJID().domain`. -/
  selfJIDDomain : String
  /-- Behaviour of the `fetch` transport for this call. -/
  fetchResult : FetchResult
deriving DecidableEq, Repr

inductive LogLevel
  | debug
  | info
  | warn
deriving DecidableEq, Repr

structure LogEntry where
  level : LogLevel
  message : String
  detail : Option String
deriving DecidableEq, Repr

/-! ### Operations of `UtilitiesTracking` -/

/-- Model of `__anonymizeUserIdentifier`: hash a present, non-empty identifier and keep
the 16-character short hex hash; `undefined` on an absent or empty identifier
(never hash an empty value). -/
def anonymizeUserIdentifier (identifier : Option String) : Option String :=
  match identifier with
  | some id =>
      if id.length > 0 then
        some (sliceTo (sha256Hex id) ANONYMIZED_USER_IDENTIFIER_SHORT_LENGTH)
      else none
  | none => none

/-- Model of `__makeEventOrigin`; the result `none` models the
`throw new Error("Incomplete origin data")` path. -/
def makeEventOrigin (env : TrackingEnv) (app : TrackingEventOriginApp) :
    Option TrackingEventOrigin :=
  match anonymizeUserIdentifier (some env.selfJIDDomain),
        anonymizeUserIdentifier env.selfJIDNode with
  | some dh, some uh =>
      some { app := app, pod := { domain_hash := dh, user_hash := some uh } }
  | _, _ => none

/-- Model of `__prepareEventOriginApp`: the app name is
`packageName.split("/")[1] || packageName` — the part after the namespace
separator when present and non-empty (an absent index and the empty string
are both falsy in JS), else the whole package name. -/
def prepareEventOriginApp (packageName packageVersion platform : String) :
    TrackingEventOriginApp :=
  { name :=
      match (jsSplit packageName (Char.ofNat 47)).get? 1 with
      | some second => if second.length > 0 then second else packageName
      | none => packageName,
    version := packageVersion,
    platform := platform }

/-- The `UtilitiesTracking` constructor: compute the app origin once and
start with an empty rate-limit register. -/
def mkTracking (packageName packageVersion platform : String) : TrackingState :=
  { eventOriginApp := prepareEventOriginApp packageName packageVersion platform,
    eventsNextAllowedSendRegister := [] }

/-- The rate-limit test `nowTime < this.__eventsNextAllowedSendRegister[name] || 0`:
in JavaScript `<` binds tighter than `||`, a comparison against `undefined` is
false, and `b || 0` is truthy exactly when `b` is true — so the test succeeds
exactly when an entry exists and `nowTime` is strictly below it. -/
def rateLimitVetoed (nowTime : Nat) (entry : Option Nat) : Bool :=
  match entry with
  | some next => decide (nowTime < next)
  | none => false

/-- What the `try` block of `__dispatchEvent` produced: the register as left
at exit, the `fetch` invocations made (each recorded with its payload), the
log entries written, and the exception in flight if the block threw. -/
structure TryOutcome (α : Type) where
  register : RegisterMap
  requests : List (TrackingEventPayload α)
  logs : List LogEntry
  thrown : Option String
deriving DecidableEq, Repr

/-- The `try` block of `UtilitiesTracking.__dispatchEvent`, step by step:
build the origin (may throw), log the attempt, check the override flag,
check the rate limiter, reserve the next allowed send time, invoke `fetch`,
check the response status. -/
def dispatchEventBody {α : Type} (self : TrackingState) (env : TrackingEnv)
    (name : TrackingEventName) (data : Option α) : TryOutcome α :=
  match makeEventOrigin env self.eventOriginApp with
  | none =>
      { register := self.eventsNextAllowedSendRegister, requests := [],
        logs := [], thrown := some "Incomplete origin data" }
  | some origin =>
      let eventData : TrackingEventPayload α :=
        { name := name, data := data, origin := origin }
      let logs0 : List LogEntry :=
        [{ level := .debug,
           message := "Sending tracking event: " ++ name.str, detail := none }]
      if env.disableTracking = some true then
        { register := self.eventsNextAllowedSendRegister, requests := [],
          logs := logs0, thrown := some "Tracking disabled by override" }
      else
        let nowTime := env.nowTime
        if rateLimitVetoed nowTime
            (regGet self.eventsNextAllowedSendRegister name.str) then
          { register := self.eventsNextAllowedSendRegister, requests := [],
            logs := logs0, thrown := some "Sending this event too frequently" }
        else
          let register1 :=
            regSet self.eventsNextAllowedSendRegister name.str
              (nowTime + EVENT_NAME_NEXT_SEND_DELAY)
          match env.fetchResult with
          | .networkError message =>
              { register := register1, requests := [eventData],
                logs := logs0, thrown := some message }
          | .response ok =>
              if ok ≠ true then
                { register := register1, requests := [eventData],
                  logs := logs0, thrown := some "Tracking request failed" }
              else
                { register := register1, requests := [eventData],
                  logs := logs0 ++
                    [{ level := .info,
                       message := "Sent tracking event: " ++ name.str,
                       detail := none }],
                  thrown := none }

/-- What one `record` call did: the state afterwards, the `fetch` invocations
made, the log entries written, the error absorbed by the `catch` clause (if
any), and the exception escaping to the caller — the failure-absorption
contract is that the latter is always `none`. -/
structure EventResult (α : Type) where
  state : TrackingState
  requests : List (TrackingEventPayload α)
  logs : List LogEntry
  caught : Option String
  uncaughtError : Option String
deriving DecidableEq, Repr

/-- Model of `__dispatchEvent`: run the `try` block, then the `catch` clause absorbs
any exception in flight into a warn log entry. -/
def dispatchEvent {α : Type} (self : TrackingState) (env : TrackingEnv)
    (name : TrackingEventName) (data : Option α) : EventResult α :=
  let r := dispatchEventBody self env name data
  match r.thrown with
  | some message =>
      { state := { eventOriginApp := self.eventOriginApp,
                   eventsNextAllowedSendRegister := r.register },
        requests := r.requests,
        logs := r.logs ++
          [{ level := .warn,
             message := "Failed tracking event: " ++ name.str ++ " (ignoring)",
             detail := some message }],
        caught := some message,
        uncaughtError := none }
  | none =>
      { state := { eventOriginApp := self.eventOriginApp,
                   eventsNextAllowedSendRegister := r.register },
        requests := r.requests, logs := r.logs,
        caught := none, uncaughtError := none }

/-- Model of `UtilitiesTracking.event`, the `record(name, data?)` operation: dispatch
unless the user opted out of tracking reports
(`Store.$settings.privacy.report.tracking !== false`). -/
def event {α : Type} (self : TrackingState) (env : TrackingEnv)
    (name : TrackingEventName) (data : Option α) : EventResult α :=
  if env.trackingSetting ≠ some false then
    dispatchEvent self env name data
  else
    { state := self, requests := [],
      logs := [{ level := .debug,
                 message := "Skipped sending tracking event: " ++ name.str
                   ++ " (opted out)",
                 detail := none }],
      caught := none, uncaughtError := none }

/-- One call in a call sequence: the collaborator readings and the call
arguments. -/
structure CallSpec (α : Type) where
  env : TrackingEnv
  name : TrackingEventName
  data : Option α
deriving DecidableEq, Repr

/-- Run a sequence of `record` calls, threading the dispatcher state and
collecting all network requests in order. -/
def runEvents {α : Type} (self : TrackingState) :
    List (CallSpec α) → TrackingState × List (TrackingEventPayload α)
  | [] => (self, [])
  | c :: rest =>
      let r := event self c.env c.name c.data
      let tailRes := runEvents r.state rest
      (tailRes.1, r.requests ++ tailRes.2)

/-! ### Sample concrete inputs, used to instantiate the theorems -/

/-- A dispatcher as constructed for this repository. -/
def sampleState : TrackingState :=
  mkTracking "@prose-im/prose-app-web" "0.1.0" "web"

/-- A benign environment: no opt-out, no override, a signed-in identity,
a transport that answers with a success status. -/
def sampleEnv : TrackingEnv :=
  { trackingSetting := none, disableTracking := none, nowTime := 1000,
    selfJIDNode := some "alice", selfJIDDomain := "example.org",
    fetchResult := .response true }

/-- The anonymized origin produced in `sampleEnv`. -/
def sampleOrigin : TrackingEventOrigin :=
  { app := sampleState.eventOriginApp,
    pod := { domain_hash := "bfabc37432958b06",
             user_hash := some "2bd806c97f0e00af" } }

/-- Sample environment `sampleEnv` with the user opted out of tracking reports. -/
def sampleEnvOpted : TrackingEnv := { sampleEnv with trackingSetting := some false }

/-- Sample environment `sampleEnv` with the configuration override veto on. -/
def sampleEnvOverride : TrackingEnv := { sampleEnv with disableTracking := some true }

/-- Sample environment read 1500 ms after `sampleEnv`: inside the cooldown window. -/
def sampleEnvSoon : TrackingEnv := { sampleEnv with nowTime := 2500 }

/-- Sample environment read 3000 ms after `sampleEnv`: the cooldown has elapsed. -/
def sampleEnvLater : TrackingEnv := { sampleEnv with nowTime := 4000 }

/-- Sample environment before sign-in: no principal available. -/
def sampleEnvNoNode : TrackingEnv := { sampleEnv with selfJIDNode := none }

set_option maxRecDepth 8000

/-! ### Sanity checks of the SHA-256 embedding -/

/-- The FIPS 180-4 test vector. -/
theorem sha256Hex_abc :
    sha256Hex "abc"
      = "ba7816bf8f01cfea414140de5dae2223b00361a396177a9cb410ff61f20015ad" := by
  decide

/-! ### Helper lemmas -/

/-- A word renders as exactly 8 hex characters. -/
theorem wordHexChars_length (w : Nat) : (wordHexChars w).length = 8 := rfl

/-- The digest always has exactly 8 words. -/
theorem digestWords_length (s : String) : (digestWords s).length = 8 := rfl

/-- The hex digest of any string has exactly 64 characters. -/
theorem sha256Hex_length (s : String) : (sha256Hex s).length = 64 := by
  show (((digestWords s).map wordHexChars).flatten).length = 64
  unfold digestWords
  simp [wordHexChars]

/-- Length of a JS slice from the start. -/
theorem sliceTo_length (s : String) (n : Nat) :
    (sliceTo s n).length = min n s.length := by
  show (s.data.take n).length = min n s.length
  exact List.length_take n s.data

/-- A 16-character short hash really has 16 characters. -/
theorem shortHash_length (s : String) :
    (sliceTo (sha256Hex s) ANONYMIZED_USER_IDENTIFIER_SHORT_LENGTH).length
      = 16 := by
  rw [sliceTo_length, sha256Hex_length]
  simp [ANONYMIZED_USER_IDENTIFIER_SHORT_LENGTH]

/-- Reading back the key just written. -/
theorem regGet_regSet_self (reg : RegisterMap) (k : String) (v : Nat) :
    regGet (regSet reg k v) k = some v := by
  simp [regGet, regSet]

/-- Finding by one key ignores filtering out another key. -/
theorem find?_filter_ne (t : RegisterMap) (k k2 : String) (h : k2 ≠ k) :
    List.find? (fun e => e.1 == k2) (t.filter (fun e => e.1 != k))
      = List.find? (fun e => e.1 == k2) t := by
  have hk : (k == k2) = false := by
    simp only [beq_eq_false_iff_ne]
    exact Ne.symm h
  induction t with
  | nil => rfl
  | cons a t ih =>
      by_cases ha : a.1 = k
      · simp [List.filter_cons, ha, List.find?_cons, hk, ih]
      · by_cases ha2 : a.1 = k2
        · simp [List.filter_cons, ha, List.find?_cons, ha2, h]
        · simp [List.filter_cons, ha, List.find?_cons, ha2, ih]

/-- Writing one key leaves every other key unchanged. -/
theorem regGet_regSet_ne (reg : RegisterMap) (k : String) (v : Nat)
    (k2 : String) (h : k2 ≠ k) : regGet (regSet reg k v) k2 = regGet reg k2 := by
  have hk : (k == k2) = false := by
    simp only [beq_eq_false_iff_ne]
    exact Ne.symm h
  unfold regGet regSet
  rw [List.find?_cons_of_neg _ (by simp [hk]), find?_filter_ne reg k k2 h]

/-- The app origin embedded in a successfully built event origin is the
app origin of the dispatcher. -/
theorem makeEventOrigin_app (env : TrackingEnv) (app : TrackingEventOriginApp)
    (origin : TrackingEventOrigin) (h : makeEventOrigin env app = some origin) :
    origin.app = app := by
  unfold makeEventOrigin at h
  cases hd : anonymizeUserIdentifier (some env.selfJIDDomain) with
  | none =>
      rw [hd] at h
      cases anonymizeUserIdentifier env.selfJIDNode <;> simp at h
  | some dh =>
      cases hu : anonymizeUserIdentifier env.selfJIDNode with
      | none => rw [hd, hu] at h; simp at h
      | some uh =>
          rw [hd, hu] at h
          simp only [Option.some.injEq] at h
          rw [← h]

/-- With the opt-out flag unset (or set to anything but `false`), `record`
dispatches. -/
theorem event_of_not_opted {α : Type} (self : TrackingState) (env : TrackingEnv)
    (name : TrackingEventName) (d : Option α)
    (h : env.trackingSetting ≠ some false) :
    event self env name d = dispatchEvent self env name d := by
  unfold event
  rw [if_pos h]

/-- With the opt-out flag set, `record` only logs the skip. -/
theorem event_of_opted {α : Type} (self : TrackingState) (env : TrackingEnv)
    (name : TrackingEventName) (d : Option α)
    (h : env.trackingSetting = some false) :
    event self env name d =
      { state := self, requests := [],
        logs := [{ level := .debug,
                   message := "Skipped sending tracking event: " ++ name.str
                     ++ " (opted out)",
                   detail := none }],
        caught := none, uncaughtError := none } := by
  unfold event
  rw [if_neg (by simp [h])]

/-- The catch clause relates `__dispatchEvent` to its try block: same
register, same requests, app origin untouched, thrown becomes caught, and
nothing escapes. -/
theorem dispatchEvent_fields {α : Type} (self : TrackingState)
    (env : TrackingEnv) (name : TrackingEventName) (d : Option α) :
    (dispatchEvent self env name d).state.eventsNextAllowedSendRegister
        = (dispatchEventBody self env name d).register ∧
    (dispatchEvent self env name d).requests
        = (dispatchEventBody self env name d).requests ∧
    (dispatchEvent self env name d).state.eventOriginApp
        = self.eventOriginApp ∧
    (dispatchEvent self env name d).caught
        = (dispatchEventBody self env name d).thrown ∧
    (dispatchEvent self env name d).uncaughtError = none := by
  simp only [dispatchEvent]
  cases h : (dispatchEventBody self env name d).thrown <;> simp [h]

/-- The try block under an incomplete origin: throws at once, touches
nothing. -/
theorem dispatchEventBody_incomplete {α : Type} (self : TrackingState)
    (env : TrackingEnv) (name : TrackingEventName) (d : Option α)
    (horig : makeEventOrigin env self.eventOriginApp = none) :
    dispatchEventBody self env name d =
      { register := self.eventsNextAllowedSendRegister, requests := [],
        logs := [], thrown := some "Incomplete origin data" } := by
  simp [dispatchEventBody, horig]

/-- The try block under the override veto: throws after the debug log,
register untouched, no request. -/
theorem dispatchEventBody_override {α : Type} (self : TrackingState)
    (env : TrackingEnv) (name : TrackingEventName) (d : Option α)
    (origin : TrackingEventOrigin)
    (horig : makeEventOrigin env self.eventOriginApp = some origin)
    (hov : env.disableTracking = some true) :
    (dispatchEventBody self env name d).register
        = self.eventsNextAllowedSendRegister ∧
    (dispatchEventBody self env name d).requests = [] ∧
    (dispatchEventBody self env name d).thrown
        = some "Tracking disabled by override" := by
  simp [dispatchEventBody, horig, hov]

/-- The try block under the rate-limit veto: throws, register untouched,
no request. -/
theorem dispatchEventBody_rateLimited {α : Type} (self : TrackingState)
    (env : TrackingEnv) (name : TrackingEventName) (d : Option α)
    (origin : TrackingEventOrigin)
    (horig : makeEventOrigin env self.eventOriginApp = some origin)
    (hov : env.disableTracking ≠ some true)
    (hrl : rateLimitVetoed env.nowTime
        (regGet self.eventsNextAllowedSendRegister name.str) = true) :
    (dispatchEventBody self env name d).register
        = self.eventsNextAllowedSendRegister ∧
    (dispatchEventBody self env name d).requests = [] ∧
    (dispatchEventBody self env name d).thrown
        = some "Sending this event too frequently" := by
  simp [dispatchEventBody, horig, if_neg hov, hrl]

/-- The try block when every gate passes: the next allowed send time is
reserved and exactly one `fetch` is issued, whatever the transport does. -/
theorem dispatchEventBody_pass {α : Type} (self : TrackingState)
    (env : TrackingEnv) (name : TrackingEventName) (d : Option α)
    (origin : TrackingEventOrigin)
    (horig : makeEventOrigin env self.eventOriginApp = some origin)
    (hov : env.disableTracking ≠ some true)
    (hrl : rateLimitVetoed env.nowTime
        (regGet self.eventsNextAllowedSendRegister name.str) = false) :
    (dispatchEventBody self env name d).register
        = regSet self.eventsNextAllowedSendRegister name.str
            (env.nowTime + EVENT_NAME_NEXT_SEND_DELAY) ∧
    (dispatchEventBody self env name d).requests
        = [{ name := name, data := d, origin := origin }] := by
  unfold dispatchEventBody
  simp only [horig, if_neg hov, hrl, Bool.false_eq_true, if_false]
  cases hf : env.fetchResult with
  | networkError m => simp
  | response ok => cases ok <;> simp

/-- Behaviour of `record` when every gate passes, at the `record` boundary. -/
theorem event_pass {α : Type} (self : TrackingState) (env : TrackingEnv)
    (name : TrackingEventName) (d : Option α) (origin : TrackingEventOrigin)
    (hopt : env.trackingSetting ≠ some false)
    (hov : env.disableTracking ≠ some true)
    (horig : makeEventOrigin env self.eventOriginApp = some origin)
    (hrl : rateLimitVetoed env.nowTime
        (regGet self.eventsNextAllowedSendRegister name.str) = false) :
    (event self env name d).state.eventsNextAllowedSendRegister
        = regSet self.eventsNextAllowedSendRegister name.str
            (env.nowTime + EVENT_NAME_NEXT_SEND_DELAY) ∧
    (event self env name d).requests
        = [{ name := name, data := d, origin := origin }] ∧
    (event self env name d).state.eventOriginApp = self.eventOriginApp := by
  rw [event_of_not_opted self env name d hopt]
  have hb := dispatchEventBody_pass self env name d origin horig hov hrl
  have hf := dispatchEvent_fields self env name d
  exact ⟨hf.1.trans hb.1, hf.2.1.trans hb.2, hf.2.2.1⟩

/-- A `record` call either leaves the register exactly as it was, or all
four gates passed and the register is the reservation update. -/
theorem event_register_cases {α : Type} (self : TrackingState)
    (env : TrackingEnv) (name : TrackingEventName) (d : Option α) :
    (event self env name d).state.eventsNextAllowedSendRegister
        = self.eventsNextAllowedSendRegister
    ∨ ((event self env name d).state.eventsNextAllowedSendRegister
          = regSet self.eventsNextAllowedSendRegister name.str
              (env.nowTime + EVENT_NAME_NEXT_SEND_DELAY)
        ∧ env.trackingSetting ≠ some false
        ∧ makeEventOrigin env self.eventOriginApp ≠ none
        ∧ env.disableTracking ≠ some true
        ∧ rateLimitVetoed env.nowTime
            (regGet self.eventsNextAllowedSendRegister name.str) = false) := by
  by_cases hopt : env.trackingSetting = some false
  · left
    rw [event_of_opted self env name d hopt]
  · rw [event_of_not_opted self env name d hopt]
    have hf := dispatchEvent_fields self env name d
    cases horig : makeEventOrigin env self.eventOriginApp with
    | none =>
        left
        rw [hf.1, dispatchEventBody_incomplete self env name d horig]
    | some origin =>
        by_cases hov : env.disableTracking = some true
        · left
          rw [hf.1,
            (dispatchEventBody_override self env name d origin horig hov).1]
        · cases hrl : rateLimitVetoed env.nowTime
              (regGet self.eventsNextAllowedSendRegister name.str) with
          | true =>
              left
              rw [hf.1, (dispatchEventBody_rateLimited self env name d origin
                horig hov hrl).1]
          | false =>
              right
              refine ⟨?_, hopt, by simp [horig], hov, rfl⟩
              rw [hf.1,
                (dispatchEventBody_pass self env name d origin horig hov hrl).1]

/-- Any request the try block issues carries an origin built by
`__makeEventOrigin` for this call. -/
theorem dispatchEventBody_requests_cases {α : Type} (self : TrackingState)
    (env : TrackingEnv) (name : TrackingEventName) (d : Option α) :
    (dispatchEventBody self env name d).requests = []
    ∨ ∃ origin, makeEventOrigin env self.eventOriginApp = some origin ∧
        (dispatchEventBody self env name d).requests
          = [{ name := name, data := d, origin := origin }] := by
  cases horig : makeEventOrigin env self.eventOriginApp with
  | none =>
      left
      rw [dispatchEventBody_incomplete self env name d horig]
  | some origin =>
      by_cases hov : env.disableTracking = some true
      · left
        exact (dispatchEventBody_override self env name d origin horig hov).2.1
      · cases hrl : rateLimitVetoed env.nowTime
            (regGet self.eventsNextAllowedSendRegister name.str) with
        | true =>
            left
            exact (dispatchEventBody_rateLimited self env name d origin
              horig hov hrl).2.1
        | false =>
            right
            exact ⟨origin, rfl,
              (dispatchEventBody_pass self env name d origin horig hov hrl).2⟩

/-- Every payload a `record` call emits carries the app origin of the
dispatcher. -/
theorem event_requests_app {α : Type} (self : TrackingState)
    (env : TrackingEnv) (name : TrackingEventName) (d : Option α) :
    ∀ pl ∈ (event self env name d).requests,
      pl.origin.app = self.eventOriginApp := by
  intro pl hpl
  by_cases hopt : env.trackingSetting = some false
  · rw [event_of_opted self env name d hopt] at hpl
    simp at hpl
  · rw [event_of_not_opted self env name d hopt,
      (dispatchEvent_fields self env name d).2.1] at hpl
    rcases dispatchEventBody_requests_cases self env name d with
      hc | ⟨origin, horig, hc⟩
    · rw [hc] at hpl
      simp at hpl
    · rw [hc] at hpl
      simp at hpl
      rw [hpl]
      exact makeEventOrigin_app env self.eventOriginApp origin horig

/-- A `record` call never changes the stored app origin. -/
theorem event_state_app {α : Type} (self : TrackingState) (env : TrackingEnv)
    (name : TrackingEventName) (d : Option α) :
    (event self env name d).state.eventOriginApp = self.eventOriginApp := by
  by_cases hopt : env.trackingSetting = some false
  · rw [event_of_opted self env name d hopt]
  · rw [event_of_not_opted self env name d hopt]
    exact (dispatchEvent_fields self env name d).2.2.1

/-- Two dispatcher states with equal fields are equal. -/
theorem trackingState_eq (s t : TrackingState)
    (h1 : s.eventOriginApp = t.eventOriginApp)
    (h2 : s.eventsNextAllowedSendRegister = t.eventsNextAllowedSendRegister) :
    s = t := by
  cases s
  cases t
  simp_all

/-- When the try block throws, the catch clause appends a warn log entry
recording the absorbed error. -/
theorem dispatchEvent_logs_of_thrown {α : Type} (self : TrackingState)
    (env : TrackingEnv) (name : TrackingEventName) (d : Option α) (m : String)
    (h : (dispatchEventBody self env name d).thrown = some m) :
    (dispatchEvent self env name d).logs
      = (dispatchEventBody self env name d).logs ++
        [{ level := LogLevel.warn,
           message := "Failed tracking event: " ++ name.str ++ " (ignoring)",
           detail := some m }] := by
  simp only [dispatchEvent, h]

/-- When every gate passes and the transport rejects, the rejection is the
exception in flight at the end of the try block. -/
theorem dispatchEventBody_pass_networkError {α : Type} (self : TrackingState)
    (env : TrackingEnv) (name : TrackingEventName) (d : Option α)
    (origin : TrackingEventOrigin) (m : String)
    (horig : makeEventOrigin env self.eventOriginApp = some origin)
    (hov : env.disableTracking ≠ some true)
    (hrl : rateLimitVetoed env.nowTime
        (regGet self.eventsNextAllowedSendRegister name.str) = false)
    (hfr : env.fetchResult = FetchResult.networkError m) :
    (dispatchEventBody self env name d).thrown = some m := by
  unfold dispatchEventBody
  simp only [horig, if_neg hov, hrl, Bool.false_eq_true, if_false, hfr]

/-- Over any call sequence, the stored app origin never changes and every
emitted payload carries it. -/
theorem runEvents_app_const {α : Type} (self : TrackingState)
    (calls : List (CallSpec α)) :
    (runEvents self calls).1.eventOriginApp = self.eventOriginApp ∧
    ((runEvents self calls).2.all
        (fun pl => decide (pl.origin.app = self.eventOriginApp))) = true := by
  induction calls generalizing self with
  | nil => exact ⟨rfl, rfl⟩
  | cons c rest ih =>
      obtain ⟨ihA, ihB⟩ := ih (event self c.env c.name c.data).state
      have hstep := event_state_app self c.env c.name c.data
      have hreq := event_requests_app self c.env c.name c.data
      simp only [runEvents]
      constructor
      · rw [ihA, hstep]
      · rw [List.all_append, Bool.and_eq_true]
        constructor
        · rw [List.all_eq_true]
          intro pl hpl
          simpa using hreq pl hpl
        · rw [hstep] at ihB
          exact ihB

/-! ### The claims -/

/-- C1: for every event name and optional data, and under every failure
condition (opt-out, override-disable, rate-limit veto, incomplete origin,
transport error, non-success response), `record` never throws and never
yields an errored result to the caller: no exception escapes the dispatch
boundary, and whatever failure is caught there is reduced to a local warn
log entry. -/
theorem record_never_throws {α : Type} (self : TrackingState)
    (env : TrackingEnv) (name : TrackingEventName) (d : Option α) :
    (event self env name d).uncaughtError = none ∧
    (∀ m, (event self env name d).caught = some m →
      { level := LogLevel.warn,
        message := "Failed tracking event: " ++ name.str ++ " (ignoring)",
        detail := some m } ∈ (event self env name d).logs) := by
  by_cases hopt : env.trackingSetting = some false
  · rw [event_of_opted self env name d hopt]
    exact ⟨rfl, by intro m hm; simp at hm⟩
  · rw [event_of_not_opted self env name d hopt]
    have hf := dispatchEvent_fields self env name d
    refine ⟨hf.2.2.2.2, ?_⟩
    intro m hm
    rw [hf.2.2.2.1] at hm
    rw [dispatchEvent_logs_of_thrown self env name d m hm]
    simp

/-- C1 witness: with the override veto on, the dispatch failure is absorbed
and logged, and nothing escapes. -/
theorem record_never_throws_witness :
    { level := LogLevel.warn,
      message := "Failed tracking event: app:heartbeat (ignoring)",
      detail := some "Tracking disabled by override" }
      ∈ (event (α := Unit) sampleState sampleEnvOverride
          TrackingEventName.appHeartbeat none).logs :=
  (record_never_throws sampleState sampleEnvOverride
      TrackingEventName.appHeartbeat none).2
    "Tracking disabled by override" (by decide)

/-- C4: when the privacy opt-out flag of the user is set, `record` performs no
transport invocation at all: it only emits a debug log of the skip, leaves
the state untouched, and returns without error. -/
theorem record_opted_out_no_transport {α : Type} (self : TrackingState)
    (env : TrackingEnv) (name : TrackingEventName) (d : Option α)
    (hopt : env.trackingSetting = some false) :
    (event self env name d).requests = [] ∧
    (event self env name d).state = self ∧
    (event self env name d).logs
      = [{ level := LogLevel.debug,
           message := "Skipped sending tracking event: " ++ name.str
             ++ " (opted out)",
           detail := none }] ∧
    (event self env name d).caught = none ∧
    (event self env name d).uncaughtError = none := by
  rw [event_of_opted self env name d hopt]
  exact ⟨rfl, rfl, rfl, rfl, rfl⟩

/-- C4 witness. -/
theorem record_opted_out_no_transport_witness :
    (event (α := Unit) sampleState sampleEnvOpted
        TrackingEventName.appHeartbeat none).requests = [] :=
  (record_opted_out_no_transport sampleState sampleEnvOpted
      TrackingEventName.appHeartbeat none rfl).1

/-- C6: whenever the principal is empty or absent, no user hash is produced
(in particular the empty string is never hashed), the origin is incomplete,
and the `record` call sends no network request at all and leaves the state
unchanged. -/
theorem record_empty_principal_no_user_hash {α : Type} (self : TrackingState)
    (env : TrackingEnv) (name : TrackingEventName) (d : Option α)
    (hnode : env.selfJIDNode = none ∨ env.selfJIDNode = some "") :
    anonymizeUserIdentifier env.selfJIDNode = none ∧
    anonymizeUserIdentifier (some "") = none ∧
    makeEventOrigin env self.eventOriginApp = none ∧
    (event self env name d).requests = [] ∧
    (event self env name d).state = self := by
  have hanon : anonymizeUserIdentifier env.selfJIDNode = none := by
    rcases hnode with h | h <;> simp [anonymizeUserIdentifier, h]
  have horig : makeEventOrigin env self.eventOriginApp = none := by
    unfold makeEventOrigin
    cases anonymizeUserIdentifier (some env.selfJIDDomain) <;> simp [hanon]
  have hreqs : (event self env name d).requests = [] := by
    by_cases hopt : env.trackingSetting = some false
    · rw [event_of_opted self env name d hopt]
    · rw [event_of_not_opted self env name d hopt,
        (dispatchEvent_fields self env name d).2.1,
        dispatchEventBody_incomplete self env name d horig]
  have hstate : (event self env name d).state = self := by
    apply trackingState_eq
    · exact event_state_app self env name d
    · rcases event_register_cases self env name d with hc | ⟨_, _, h2, _, _⟩
      · exact hc
      · exact absurd horig h2
  exact ⟨hanon, rfl, horig, hreqs, hstate⟩

/-- C6 witness: before sign-in no request leaves the client. -/
theorem record_empty_principal_no_user_hash_witness :
    (event (α := Unit) sampleState sampleEnvNoNode
        TrackingEventName.appHeartbeat none).requests = [] :=
  (record_empty_principal_no_user_hash sampleState sampleEnvNoNode
      TrackingEventName.appHeartbeat none (Or.inl rfl)).2.2.2.1

/-- C10: a `record` call vetoed by the opt-out flag, the override flag, the
rate limiter, or incomplete origin data leaves the rate-limit register
completely unchanged; any call only ever touches the entry of its own event
name; and the register changes only when all four gates pass. -/
theorem register_untouched_on_veto {α : Type} (self : TrackingState)
    (env : TrackingEnv) (name : TrackingEventName) (d : Option α) :
    ((env.trackingSetting = some false
        ∨ makeEventOrigin env self.eventOriginApp = none
        ∨ env.disableTracking = some true
        ∨ rateLimitVetoed env.nowTime
            (regGet self.eventsNextAllowedSendRegister name.str) = true) →
      (event self env name d).state.eventsNextAllowedSendRegister
        = self.eventsNextAllowedSendRegister) ∧
    (∀ k, k ≠ name.str →
      regGet (event self env name d).state.eventsNextAllowedSendRegister k
        = regGet self.eventsNextAllowedSendRegister k) ∧
    ((event self env name d).state.eventsNextAllowedSendRegister
        ≠ self.eventsNextAllowedSendRegister →
      env.trackingSetting ≠ some false
        ∧ makeEventOrigin env self.eventOriginApp ≠ none
        ∧ env.disableTracking ≠ some true
        ∧ rateLimitVetoed env.nowTime
            (regGet self.eventsNextAllowedSendRegister name.str) = false) := by
  rcases event_register_cases self env name d with hc | ⟨hc, h1, h2, h3, h4⟩
  · exact ⟨fun _ => hc, fun k _ => by rw [hc], fun hne => absurd hc hne⟩
  · refine ⟨?_, ?_, fun _ => ⟨h1, h2, h3, h4⟩⟩
    · rintro (hv | hv | hv | hv)
      · exact absurd hv h1
      · exact absurd hv h2
      · exact absurd hv h3
      · rw [h4] at hv
        simp at hv
    · intro k hk
      rw [hc, regGet_regSet_ne _ _ _ _ hk]

/-- C10 witness: an opted-out call leaves the register untouched. -/
theorem register_untouched_on_veto_witness :
    (event (α := Unit) sampleState sampleEnvOpted
        TrackingEventName.appHeartbeat none).state.eventsNextAllowedSendRegister
      = sampleState.eventsNextAllowedSendRegister :=
  (register_untouched_on_veto sampleState sampleEnvOpted
      TrackingEventName.appHeartbeat none).1 (Or.inl rfl)

/-- C2: when `record` is called twice for the same event name and the second
current time of the second call is strictly below the next allowed send time reserved by
the first call (its time plus 3000 ms), the first call issues exactly one
request, the second call is vetoed as sending too frequently and performs no
transport call, so at most one request is issued in the window; and an unset
register entry is never rate-limited, so a first call never is. -/
theorem record_second_call_in_window_vetoed {α : Type} (self : TrackingState)
    (env1 env2 : TrackingEnv) (name : TrackingEventName) (d1 d2 : Option α)
    (origin1 origin2 : TrackingEventOrigin)
    (hopt1 : env1.trackingSetting ≠ some false)
    (hov1 : env1.disableTracking ≠ some true)
    (horig1 : makeEventOrigin env1 self.eventOriginApp = some origin1)
    (hrl1 : rateLimitVetoed env1.nowTime
        (regGet self.eventsNextAllowedSendRegister name.str) = false)
    (hopt2 : env2.trackingSetting ≠ some false)
    (hov2 : env2.disableTracking ≠ some true)
    (horig2 : makeEventOrigin env2 self.eventOriginApp = some origin2)
    (hwin : env2.nowTime < env1.nowTime + EVENT_NAME_NEXT_SEND_DELAY) :
    (event self env1 name d1).requests.length = 1 ∧
    (event (event self env1 name d1).state env2 name d2).requests = [] ∧
    (event (event self env1 name d1).state env2 name d2).caught
      = some "Sending this event too frequently" ∧
    ((event self env1 name d1).requests
        ++ (event (event self env1 name d1).state env2 name d2).requests).length
      ≤ 1 ∧
    (∀ t : Nat, rateLimitVetoed t none = false) := by
  obtain ⟨hreg1, hreq1, happ1⟩ :=
    event_pass self env1 name d1 origin1 hopt1 hov1 horig1 hrl1
  have horig2b : makeEventOrigin env2
      (event self env1 name d1).state.eventOriginApp = some origin2 := by
    rw [happ1]
    exact horig2
  have hveto2 : rateLimitVetoed env2.nowTime
      (regGet (event self env1 name d1).state.eventsNextAllowedSendRegister
        name.str) = true := by
    rw [hreg1, regGet_regSet_self]
    simp only [rateLimitVetoed, decide_eq_true_eq]
    exact hwin
  have he2 : event (event self env1 name d1).state env2 name d2
      = dispatchEvent (event self env1 name d1).state env2 name d2 :=
    event_of_not_opted _ env2 name d2 hopt2
  have hf2 := dispatchEvent_fields (event self env1 name d1).state env2 name d2
  have hb2 := dispatchEventBody_rateLimited (event self env1 name d1).state
    env2 name d2 origin2 horig2b hov2 hveto2
  refine ⟨by rw [hreq1]; rfl, ?_, ?_, ?_, fun t => rfl⟩
  · rw [he2, hf2.2.1, hb2.2.1]
  · rw [he2, hf2.2.2.2.1, hb2.2.2]
  · rw [hreq1, he2, hf2.2.1, hb2.2.1]
    simp

/-- C2 witness: a second heartbeat 1500 ms after the first is dropped. -/
theorem record_second_call_in_window_vetoed_witness :
    (event (α := Unit)
        (event (α := Unit) sampleState sampleEnv
          TrackingEventName.appHeartbeat none).state
        sampleEnvSoon TrackingEventName.appHeartbeat none).requests = [] :=
  (record_second_call_in_window_vetoed sampleState sampleEnv sampleEnvSoon
      TrackingEventName.appHeartbeat none none sampleOrigin sampleOrigin
      (by decide) (by decide) (by decide) (by decide)
      (by decide) (by decide) (by decide) (by decide)).2.1

/-- C3: a `record` call that passes the opt-out, override and rate-limit
gates (and has a complete origin, so a send is attempted) sets the
registered next allowed send time to now plus 3000 ms as a reservation,
whatever the transport then does; when the transport fails the reservation
is not rolled back — the failure is absorbed, and any retry inside the full
cooldown window is still vetoed. -/
theorem record_reservation_set_before_send {α : Type} (self : TrackingState)
    (env : TrackingEnv) (name : TrackingEventName) (d : Option α)
    (origin : TrackingEventOrigin)
    (hopt : env.trackingSetting ≠ some false)
    (hov : env.disableTracking ≠ some true)
    (horig : makeEventOrigin env self.eventOriginApp = some origin)
    (hrl : rateLimitVetoed env.nowTime
        (regGet self.eventsNextAllowedSendRegister name.str) = false) :
    regGet (event self env name d).state.eventsNextAllowedSendRegister name.str
      = some (env.nowTime + EVENT_NAME_NEXT_SEND_DELAY) ∧
    (event self env name d).requests.length = 1 ∧
    (∀ m : String,
      regGet (event self { env with fetchResult := FetchResult.networkError m }
          name d).state.eventsNextAllowedSendRegister name.str
        = some (env.nowTime + EVENT_NAME_NEXT_SEND_DELAY) ∧
      (event self { env with fetchResult := FetchResult.networkError m }
          name d).caught = some m) ∧
    (∀ (m : String) (t2 : Nat), t2 < env.nowTime + EVENT_NAME_NEXT_SEND_DELAY →
      rateLimitVetoed t2
        (regGet (event self { env with fetchResult := FetchResult.networkError m }
            name d).state.eventsNextAllowedSendRegister name.str) = true) := by
  obtain ⟨hreg, hreq, happ⟩ := event_pass self env name d origin hopt hov horig hrl
  have hfail : ∀ m : String,
      regGet (event self { env with fetchResult := FetchResult.networkError m }
          name d).state.eventsNextAllowedSendRegister name.str
        = some (env.nowTime + EVENT_NAME_NEXT_SEND_DELAY) ∧
      (event self { env with fetchResult := FetchResult.networkError m }
          name d).caught = some m := by
    intro m
    obtain ⟨hreg2, hreq2, happ2⟩ :=
      event_pass self { env with fetchResult := FetchResult.networkError m }
        name d origin hopt hov horig hrl
    constructor
    · rw [hreg2, regGet_regSet_self]
    · have hopt2 : ({ env with fetchResult := FetchResult.networkError m }
          : TrackingEnv).trackingSetting ≠ some false := hopt
      rw [event_of_not_opted self
          { env with fetchResult := FetchResult.networkError m } name d hopt2,
        (dispatchEvent_fields self
          { env with fetchResult := FetchResult.networkError m } name d).2.2.2.1,
        dispatchEventBody_pass_networkError self
          { env with fetchResult := FetchResult.networkError m } name d origin m
          horig hov hrl rfl]
  refine ⟨by rw [hreg, regGet_regSet_self], by rw [hreq]; rfl, hfail, ?_⟩
  intro m t2 ht2
  rw [(hfail m).1]
  simp only [rateLimitVetoed, decide_eq_true_eq]
  exact ht2

/-- C3 witness. -/
theorem record_reservation_set_before_send_witness :
    regGet (event (α := Unit) sampleState sampleEnv
        TrackingEventName.appHeartbeat none).state.eventsNextAllowedSendRegister
        TrackingEventName.appHeartbeat.str
      = some (sampleEnv.nowTime + EVENT_NAME_NEXT_SEND_DELAY) :=
  (record_reservation_set_before_send sampleState sampleEnv
      TrackingEventName.appHeartbeat none sampleOrigin
      (by decide) (by decide) (by decide) (by decide)).1

/-- C5: for the identity with domain `example.org` and principal `alice`
(gates passing), the single emitted payload carries exactly the 16-character
truncated SHA-256 hex hashes of the respective raw inputs as its pod origin,
and neither hash equals its raw input. -/
theorem record_payload_hashes_anonymized {α : Type} (self : TrackingState)
    (env : TrackingEnv) (name : TrackingEventName) (d : Option α)
    (hdom : env.selfJIDDomain = "example.org")
    (hnode : env.selfJIDNode = some "alice")
    (hopt : env.trackingSetting ≠ some false)
    (hov : env.disableTracking ≠ some true)
    (hrl : rateLimitVetoed env.nowTime
        (regGet self.eventsNextAllowedSendRegister name.str) = false) :
    ∃ pl : TrackingEventPayload α,
      (event self env name d).requests = [pl] ∧
      pl.origin.pod.domain_hash
        = sliceTo (sha256Hex "example.org")
            ANONYMIZED_USER_IDENTIFIER_SHORT_LENGTH ∧
      pl.origin.pod.user_hash
        = some (sliceTo (sha256Hex "alice")
            ANONYMIZED_USER_IDENTIFIER_SHORT_LENGTH) ∧
      pl.origin.pod.domain_hash.length = 16 ∧
      (sliceTo (sha256Hex "alice")
        ANONYMIZED_USER_IDENTIFIER_SHORT_LENGTH).length = 16 ∧
      pl.origin.pod.domain_hash ≠ "example.org" ∧
      pl.origin.pod.user_hash ≠ some "alice" := by
  have ha1 : anonymizeUserIdentifier (some "example.org")
      = some (sliceTo (sha256Hex "example.org")
          ANONYMIZED_USER_IDENTIFIER_SHORT_LENGTH) := by
    simp only [anonymizeUserIdentifier]
    rw [if_pos (by decide)]
  have ha2 : anonymizeUserIdentifier (some "alice")
      = some (sliceTo (sha256Hex "alice")
          ANONYMIZED_USER_IDENTIFIER_SHORT_LENGTH) := by
    simp only [anonymizeUserIdentifier]
    rw [if_pos (by decide)]
  have horig : makeEventOrigin env self.eventOriginApp
      = some { app := self.eventOriginApp,
               pod := { domain_hash := sliceTo (sha256Hex "example.org")
                          ANONYMIZED_USER_IDENTIFIER_SHORT_LENGTH,
                        user_hash := some (sliceTo (sha256Hex "alice")
                          ANONYMIZED_USER_IDENTIFIER_SHORT_LENGTH) } } := by
    unfold makeEventOrigin
    rw [hdom, hnode, ha1, ha2]
  obtain ⟨hreg, hreq, happ⟩ := event_pass self env name d _ hopt hov horig hrl
  have hne1 : sliceTo (sha256Hex "example.org")
      ANONYMIZED_USER_IDENTIFIER_SHORT_LENGTH ≠ "example.org" := by
    intro he
    have hlen := congrArg String.length he
    rw [shortHash_length] at hlen
    have h11 : ("example.org" : String).length = 11 := by decide
    rw [h11] at hlen
    exact absurd hlen (by decide)
  have hne2 : sliceTo (sha256Hex "alice")
      ANONYMIZED_USER_IDENTIFIER_SHORT_LENGTH ≠ "alice" := by
    intro he
    have hlen := congrArg String.length he
    rw [shortHash_length] at hlen
    have h5 : ("alice" : String).length = 5 := by decide
    rw [h5] at hlen
    exact absurd hlen (by decide)
  refine ⟨_, hreq, rfl, rfl, shortHash_length "example.org",
    shortHash_length "alice", hne1, ?_⟩
  intro he
  exact hne2 (Option.some.inj he)

/-- C5 witness. -/
theorem record_payload_hashes_anonymized_witness :
    ∃ pl : TrackingEventPayload Unit,
      (event sampleState sampleEnv TrackingEventName.appHeartbeat none).requests
        = [pl] ∧
      pl.origin.pod.domain_hash
        = sliceTo (sha256Hex "example.org")
            ANONYMIZED_USER_IDENTIFIER_SHORT_LENGTH ∧
      pl.origin.pod.user_hash
        = some (sliceTo (sha256Hex "alice")
            ANONYMIZED_USER_IDENTIFIER_SHORT_LENGTH) ∧
      pl.origin.pod.domain_hash.length = 16 ∧
      (sliceTo (sha256Hex "alice")
        ANONYMIZED_USER_IDENTIFIER_SHORT_LENGTH).length = 16 ∧
      pl.origin.pod.domain_hash ≠ "example.org" ∧
      pl.origin.pod.user_hash ≠ some "alice" :=
  record_payload_hashes_anonymized sampleState sampleEnv
    TrackingEventName.appHeartbeat none rfl rfl
    (by decide) (by decide) (by decide)

/-- C7: the app origin record (name, version, platform) is computed exactly
once at dispatcher construction, and every payload emitted by every `record`
call in any call sequence carries that same value, which the state still
holds at the end. -/
theorem app_origin_constant_across_calls {α : Type}
    (pkgName pkgVersion platform : String) (calls : List (CallSpec α)) :
    (runEvents (mkTracking pkgName pkgVersion platform) calls).1.eventOriginApp
      = prepareEventOriginApp pkgName pkgVersion platform ∧
    ((runEvents (mkTracking pkgName pkgVersion platform) calls).2.all
        (fun pl => decide (pl.origin.app
          = prepareEventOriginApp pkgName pkgVersion platform))) = true := by
  have h := runEvents_app_const (mkTracking pkgName pkgVersion platform) calls
  have heq : (mkTracking pkgName pkgVersion platform).eventOriginApp
      = prepareEventOriginApp pkgName pkgVersion platform := rfl
  rw [heq] at h
  refine ⟨h.1, ?_⟩
  rw [← h.2]

/-- C8: calling `record` once, waiting until at least the 3000 ms cooldown
has elapsed, then calling again for the same name with all gates passing,
issues exactly two network requests. -/
theorem record_after_cooldown_two_requests {α : Type} (self : TrackingState)
    (env1 env2 : TrackingEnv) (name : TrackingEventName) (d1 d2 : Option α)
    (origin1 origin2 : TrackingEventOrigin)
    (hopt1 : env1.trackingSetting ≠ some false)
    (hov1 : env1.disableTracking ≠ some true)
    (horig1 : makeEventOrigin env1 self.eventOriginApp = some origin1)
    (hrl1 : rateLimitVetoed env1.nowTime
        (regGet self.eventsNextAllowedSendRegister name.str) = false)
    (hopt2 : env2.trackingSetting ≠ some false)
    (hov2 : env2.disableTracking ≠ some true)
    (horig2 : makeEventOrigin env2 self.eventOriginApp = some origin2)
    (hwait : env1.nowTime + EVENT_NAME_NEXT_SEND_DELAY ≤ env2.nowTime) :
    (event self env1 name d1).requests.length = 1 ∧
    (event (event self env1 name d1).state env2 name d2).requests.length = 1 ∧
    ((event self env1 name d1).requests
        ++ (event (event self env1 name d1).state env2 name d2).requests).length
      = 2 := by
  obtain ⟨hreg1, hreq1, happ1⟩ :=
    event_pass self env1 name d1 origin1 hopt1 hov1 horig1 hrl1
  have horig2b : makeEventOrigin env2
      (event self env1 name d1).state.eventOriginApp = some origin2 := by
    rw [happ1]
    exact horig2
  have hrl2 : rateLimitVetoed env2.nowTime
      (regGet (event self env1 name d1).state.eventsNextAllowedSendRegister
        name.str) = false := by
    rw [hreg1, regGet_regSet_self]
    simp only [rateLimitVetoed, decide_eq_false_iff_not]
    omega
  obtain ⟨hreg2, hreq2, happ2⟩ :=
    event_pass (event self env1 name d1).state env2 name d2 origin2
      hopt2 hov2 horig2b hrl2
  exact ⟨by rw [hreq1]; rfl, by rw [hreq2]; rfl, by rw [hreq1, hreq2]; rfl⟩

/-- C8 witness: a heartbeat at 1000 ms and another at 4000 ms both go out. -/
theorem record_after_cooldown_two_requests_witness :
    ((event (α := Unit) sampleState sampleEnv
        TrackingEventName.appHeartbeat none).requests
      ++ (event
          (event (α := Unit) sampleState sampleEnv
            TrackingEventName.appHeartbeat none).state
          sampleEnvLater TrackingEventName.appHeartbeat none).requests).length
      = 2 :=
  (record_after_cooldown_two_requests sampleState sampleEnv sampleEnvLater
      TrackingEventName.appHeartbeat none none sampleOrigin sampleOrigin
      (by decide) (by decide) (by decide) (by decide)
      (by decide) (by decide) (by decide) (by decide)).2.2

end ProseTelemetry
